import Mathlib

set_option autoImplicit false

/-- Errors surfaced by the fuzzy-system operations. The source raises
Python exceptions: KeyError from the dict lookup in infer, ValueError
from the not-found / already-exists branches of the container methods,
and an index/empty-reduction error when a rule has no antecedent terms. -/
inductive FuzzyErr where
  | keyError (name : String)
  | variableNotFound (name : String)
  | membershipNotFound (name : String)
  | duplicateName (name : String)
  | emptyDegrees
  deriving DecidableEq

/-- A triangular fuzzy membership function: a name and the list of three
points, embedding the FuzzyMembership class of main.py. The constructor
docstring in the source fixes points to a list of exactly three reals. -/
structure FuzzyMembership where
  name : String
  points : List ℚ
  deriving DecidableEq

/-- Embedding of FuzzyMembership.__call__ from main.py. The source indexes
points[0], points[1], points[2]; getD's default is never consulted for the
three-point functions the source constructs. The branch structure is kept
exactly: x ≤ p0 returns 1 when p0 = p1 and 0 otherwise; the two slope
branches divide by p1 - p0 and p2 - p1, nonzero under their guards; any
other x yields 0. -/
def FuzzyMembership.eval (m : FuzzyMembership) (x : ℚ) : ℚ :=
  let p0 := m.points.getD 0 0
  let p1 := m.points.getD 1 0
  let p2 := m.points.getD 2 0
  if x ≤ p0 then (if p0 = p1 then 1 else 0)
  else if p0 < x ∧ x ≤ p1 then (x - p0) / (p1 - p0)
  else if p1 < x ∧ x ≤ p2 then (p2 - x) / (p2 - p1)
  else 0

/-- A fuzzy variable: a name and its ordered list of membership functions,
embedding the FuzzyVariable class of main.py. -/
structure FuzzyVariable where
  name : String
  membership_functions : List FuzzyMembership
  deriving DecidableEq

/-- Embedding of the Python comparison performed by the membership tests
in add_membership_function and delete_membership_function: the source
writes a string (a name) on the left of the in operator and a list of
FuzzyMembership objects on the right, so each element comparison is
str == FuzzyMembership. Neither class defines cross-type equality, so
Python falls back to identity and every such comparison is False. -/
def pyStrEqMembership (_ : String) (_ : FuzzyMembership) : Bool :=
  false

/-- Embedding of the expression `name in self.membership_functions` of
main.py, elementwise via pyStrEqMembership. -/
def strInMembershipList (s : String) (l : List FuzzyMembership) : Bool :=
  l.any (pyStrEqMembership s)

/-- Embedding of FuzzyVariable.add_membership_function: raise ValueError
when the (broken, see pyStrEqMembership) membership test finds the name,
otherwise append. -/
def FuzzyVariable.add_membership_function (v : FuzzyVariable)
    (mf : FuzzyMembership) : Except FuzzyErr FuzzyVariable :=
  if strInMembershipList mf.name v.membership_functions then
    .error (.duplicateName mf.name)
  else
    .ok { v with membership_functions := v.membership_functions ++ [mf] }

/-- Embedding of FuzzyVariable.get_membership_function: scan the list in
order and return the first membership function with the requested name,
raising ValueError when none matches. -/
def FuzzyVariable.get_membership_function (v : FuzzyVariable)
    (name : String) : Except FuzzyErr FuzzyMembership :=
  match v.membership_functions.find? (fun mf => mf.name == name) with
  | some mf => .ok mf
  | none => .error (.membershipNotFound name)

/-- Embedding of FuzzyVariable.delete_membership_function: raise ValueError
when the (broken, see pyStrEqMembership) membership test does not find the
name, otherwise remove the element returned by get_membership_function. -/
def FuzzyVariable.delete_membership_function (v : FuzzyVariable)
    (name : String) : Except FuzzyErr FuzzyVariable :=
  if ¬ strInMembershipList name v.membership_functions then
    .error (.membershipNotFound name)
  else
    match v.get_membership_function name with
    | .error e => .error e
    | .ok mf => .ok { v with membership_functions := v.membership_functions.erase mf }

/-- A fuzzy rule, embedding the FuzzyRule class of main.py: the antecedent
is an ordered list of (variable name, membership-function name) pairs, the
operators are the raw string tokens of the source (the module-level
constants OR, AND, NONE are the strings "OR", "AND", "NONE"), and the
consequent is the rule's output function, taking the collected crisp
argument list. -/
structure FuzzyRule where
  antecedent : List (String × String)
  operators : List String
  consequent : List ℚ → ℚ

/-- A fuzzy system, embedding the FuzzySystem class of main.py. -/
structure FuzzySystem where
  fuzzy_variables : List FuzzyVariable
  fuzzy_rules : List FuzzyRule

/-- Embedding of the Python comparison performed by the membership tests in
add_fuzzy_variable and delete_fuzzy_variable: str == FuzzyVariable, always
False for the same reason as pyStrEqMembership. -/
def pyStrEqVariable (_ : String) (_ : FuzzyVariable) : Bool :=
  false

/-- Embedding of the expression `name in self.fuzzy_variables` of main.py. -/
def strInVariableList (s : String) (l : List FuzzyVariable) : Bool :=
  l.any (pyStrEqVariable s)

/-- Embedding of FuzzySystem.add_fuzzy_variable: raise ValueError when the
(broken, see pyStrEqVariable) membership test finds the name, otherwise
append. -/
def FuzzySystem.add_fuzzy_variable (fs : FuzzySystem)
    (fv : FuzzyVariable) : Except FuzzyErr FuzzySystem :=
  if strInVariableList fv.name fs.fuzzy_variables then
    .error (.duplicateName fv.name)
  else
    .ok { fs with fuzzy_variables := fs.fuzzy_variables ++ [fv] }

/-- Embedding of FuzzySystem.get_fuzzy_variable: scan the list in order and
return the first variable with the requested name, raising ValueError when
none matches. -/
def FuzzySystem.get_fuzzy_variable (fs : FuzzySystem)
    (name : String) : Except FuzzyErr FuzzyVariable :=
  match fs.fuzzy_variables.find? (fun fv => fv.name == name) with
  | some fv => .ok fv
  | none => .error (.variableNotFound name)

/-- Embedding of FuzzySystem.delete_fuzzy_variable: raise ValueError when
the (broken, see pyStrEqVariable) membership test does not find the name,
otherwise remove the element returned by get_fuzzy_variable. -/
def FuzzySystem.delete_fuzzy_variable (fs : FuzzySystem)
    (name : String) : Except FuzzyErr FuzzySystem :=
  if ¬ strInVariableList name fs.fuzzy_variables then
    .error (.variableNotFound name)
  else
    match fs.get_fuzzy_variable name with
    | .error e => .error e
    | .ok fv => .ok { fs with fuzzy_variables := fs.fuzzy_variables.erase fv }

/-- Lookup in the inputs dict of infer: Python dicts have unique keys, so
the first (only) matching entry of the association list is returned; a
missing key raises KeyError in the source. -/
def dictGet (values : List (String × ℚ)) (k : String) : Option ℚ :=
  (values.find? (fun p => p.1 == k)).map (fun p => p.2)

/-- The firing-weight computation of FuzzySystem.infer for one rule, from
the collected membership degrees: an empty operator list takes
membership_degrees[0] (IndexError on an empty list, modelled as none); a
first operator equal to the OR token takes np.max of the degrees; any
other first operator takes np.min (both raise on an empty list, modelled
as none). -/
def ruleWeight (operators : List String) (degrees : List ℚ) : Option ℚ :=
  if operators.length = 0 then degrees.head?
  else if operators.head? = some "OR" then degrees.max?
  else degrees.min?

/-- The antecedent loop of FuzzySystem.infer: for each (variable name,
membership-function name) pair in order, look up the crisp value in the
inputs dict (KeyError when absent), look up the variable in the system and
its membership function (ValueError when absent), and collect the crisp
value as a consequent argument and the evaluated degree, in antecedent
order. -/
def gatherAntecedent (fs : FuzzySystem) (values : List (String × ℚ)) :
    List (String × String) → Except FuzzyErr (List ℚ × List ℚ)
  | [] => .ok ([], [])
  | pair :: rest =>
    match dictGet values pair.1 with
    | none => .error (.keyError pair.1)
    | some x =>
      match fs.get_fuzzy_variable pair.1 with
      | .error e => .error e
      | .ok fv =>
        match fv.get_membership_function pair.2 with
        | .error e => .error e
        | .ok mf =>
          match gatherAntecedent fs values rest with
          | .error e => .error e
          | .ok (degrees, args) => .ok (mf.eval x :: degrees, x :: args)

/-- One iteration of the rule loop of FuzzySystem.infer: gather the
degrees and consequent arguments, derive the firing weight via ruleWeight,
and evaluate the consequent on the collected arguments (evaluated
unconditionally in the source, even for a zero weight). Returns the
(output, weight) pair appended to outputs and weights. -/
def evalRule (fs : FuzzySystem) (values : List (String × ℚ))
    (rule : FuzzyRule) : Except FuzzyErr (ℚ × ℚ) :=
  match gatherAntecedent fs values rule.antecedent with
  | .error e => .error e
  | .ok (degrees, args) =>
    match ruleWeight rule.operators degrees with
    | none => .error .emptyDegrees
    | some w => .ok (rule.consequent args, w)

/-- The rule loop of FuzzySystem.infer over the system's rule list, in list
order; the first failing rule aborts the whole call. -/
def inferPairs (fs : FuzzySystem) (values : List (String × ℚ)) :
    List FuzzyRule → Except FuzzyErr (List (ℚ × ℚ))
  | [] => .ok []
  | rule :: rest =>
    match evalRule fs values rule with
    | .error e => .error e
    | .ok p =>
      match inferPairs fs values rest with
      | .error e => .error e
      | .ok ps => .ok (p :: ps)

/-- Embedding of FuzzySystem.infer: evaluate every rule, then aggregate as
np.dot(outputs, weights) / sum(weights). When the total weight is zero the
source performs a float division by zero, silently producing a non-finite
result (NaN for the all-weights-zero case) instead of raising; that
outcome is modelled as none, and a well-defined crisp result as some. -/
def FuzzySystem.infer (fs : FuzzySystem) (values : List (String × ℚ)) :
    Except FuzzyErr (Option ℚ) :=
  match inferPairs fs values fs.fuzzy_rules with
  | .error e => .error e
  | .ok pairs =>
    let num := (pairs.map (fun p => p.1 * p.2)).sum
    let den := (pairs.map (fun p => p.2)).sum
    .ok (if den = 0 then none else some (num / den))

/-- The Food Quality demo variable of main.py. The source builds it by
three add_membership_function calls on an empty variable, each of which
appends (see the theorem for claim C4), yielding this list. -/
def food_quality : FuzzyVariable :=
  { name := "Food Quality",
    membership_functions :=
      [ { name := "Low", points := [0, 0, 5] },
        { name := "Medium", points := [0, 5, 10] },
        { name := "High", points := [5, 10, 10] } ] }

/-- The Service Quality demo variable of main.py, same three shapes. -/
def service_quality : FuzzyVariable :=
  { name := "Service Quality",
    membership_functions :=
      [ { name := "Low", points := [0, 0, 5] },
        { name := "Medium", points := [0, 5, 10] },
        { name := "High", points := [5, 10, 10] } ] }

/-- The Tip Amount demo variable of main.py. -/
def tip_amount : FuzzyVariable :=
  { name := "Tip Amount",
    membership_functions :=
      [ { name := "Low", points := [0, 0, 13] },
        { name := "Medium", points := [0, 13, 25] },
        { name := "High", points := [13, 25, 25] } ] }

/-- Consequent of demo rules 1 and 3 of main.py. -/
def rule1_3 (x1 x2 : ℚ) : ℚ := 5/4*(x1 + x2)

/-- Consequent of demo rule 2 of main.py. -/
def rule2 (x1 : ℚ) : ℚ := 5/2*x1

/-- The demo rule list of main.py; the consequents take the collected
argument list positionally, matching the arity of each antecedent. -/
def rules : List FuzzyRule :=
  [ { antecedent := [("Food Quality", "Low"), ("Service Quality", "Low")],
      operators := ["OR"],
      consequent := fun args => rule1_3 (args.getD 0 0) (args.getD 1 0) },
    { antecedent := [("Service Quality", "Medium")],
      operators := [],
      consequent := fun args => rule2 (args.getD 0 0) },
    { antecedent := [("Food Quality", "High"), ("Service Quality", "High")],
      operators := ["OR"],
      consequent := fun args => rule1_3 (args.getD 0 0) (args.getD 1 0) } ]

/-- The demo fuzzy system of main.py. -/
def fs : FuzzySystem :=
  { fuzzy_variables := [food_quality, service_quality, tip_amount],
    fuzzy_rules := rules }

/-- The demo inputs of main.py: Food Quality 10, Service Quality 10. -/
def values : List (String × ℚ) :=
  [("Food Quality", 10), ("Service Quality", 10)]

/-- Claim C1: for the reference system, calling infer with inputs
Food Quality = 10 and Service Quality = 10 returns exactly 25. -/
theorem C1_infer_demo_returns_25 : fs.infer values = .ok (some 25) := by
  simp [FuzzySystem.infer, inferPairs, evalRule, gatherAntecedent, dictGet,
    ruleWeight, FuzzySystem.get_fuzzy_variable, FuzzyVariable.get_membership_function,
    FuzzyMembership.eval, fs, rules, values, food_quality, service_quality, tip_amount,
    rule1_3, rule2, List.find?, List.max?, List.min?]
  norm_num

/-- Claim C2: the firing weight infer derives from the collected
membership degrees: a single-term antecedent (a single collected degree)
yields that degree whatever the operator list; a nonempty operator list
whose first token is OR yields the maximum of the degrees; a nonempty
operator list whose first token is anything other than OR yields the
minimum of the degrees. -/
theorem C2_firing_weight (operators : List String) (degrees : List ℚ) (d : ℚ) :
    (degrees = [d] → ruleWeight operators degrees = some d) ∧
    (operators.head? = some "OR" → ruleWeight operators degrees = degrees.max?) ∧
    (∀ op, operators.head? = some op → op ≠ "OR" →
      ruleWeight operators degrees = degrees.min?) := by
  refine ⟨?_, ?_, ?_⟩
  · rintro rfl
    cases operators with
    | nil => simp [ruleWeight]
    | cons o rest =>
      by_cases ho : o = "OR" <;>
        simp [ruleWeight, ho, List.max?, List.min?]
  · intro h
    cases operators with
    | nil => simp at h
    | cons o rest =>
      simp only [List.head?_cons, Option.some.injEq] at h
      subst h
      simp [ruleWeight]
  · intro op hop hne
    cases operators with
    | nil => simp at hop
    | cons o rest =>
      simp only [List.head?_cons, Option.some.injEq] at hop
      subst hop
      simp [ruleWeight, hne]

/-- Witness for C2: a two-degree rule whose first operator token is AND
gets the minimum of its degrees. -/
theorem C2_firing_weight_witness :
    ruleWeight ["AND"] [(1 : ℚ), 0] = ([(1 : ℚ), 0]).min? :=
  (C2_firing_weight ["AND"] [(1 : ℚ), 0] 0).2.2 "AND" rfl (by decide)

/-- Counterexample system for claim C3: one variable with a left-shoulder
function A and a triangle B. -/
def cexVariable : FuzzyVariable :=
  { name := "V",
    membership_functions :=
      [ { name := "A", points := [0, 0, 5] },
        { name := "B", points := [0, 5, 10] } ] }

/-- Counterexample rule for claim C3: two antecedent terms and an empty
operator list, with a constant consequent. -/
def cexRule : FuzzyRule :=
  { antecedent := [("V", "A"), ("V", "B")],
    operators := [],
    consequent := fun _ => 7 }

/-- Counterexample system for claim C3. -/
def cexSystem : FuzzySystem :=
  { fuzzy_variables := [cexVariable], fuzzy_rules := [cexRule] }

/-- Counterexample inputs for claim C3: at 0 the degrees are A = 1
(left shoulder) and B = 0, so the first degree and the minimum differ. -/
def cexValues : List (String × ℚ) := [("V", 0)]

/-- Claim C3 is false on the code: for the two-term rule with an empty
operator list, the collected degrees are [1, 0], infer's weight is the
first degree 1 (membership_degrees[0]), not the minimum 0; consequently
infer returns the rule's output 7 rather than hitting the zero-total-weight
case that a minimum weight of 0 would force. -/
theorem C3_counterexample :
    cexRule.antecedent.length = 2 ∧
    cexRule.operators = [] ∧
    gatherAntecedent cexSystem cexValues cexRule.antecedent = .ok ([1, 0], [0, 0]) ∧
    ruleWeight cexRule.operators [1, 0] = some 1 ∧
    ruleWeight cexRule.operators [1, 0] ≠ ([(1 : ℚ), 0]).min? ∧
    cexSystem.infer cexValues = .ok (some 7) := by
  refine ⟨rfl, rfl, ?_, ?_, ?_, ?_⟩
  · simp [gatherAntecedent, cexSystem, cexValues, cexRule, cexVariable, dictGet,
      FuzzySystem.get_fuzzy_variable, FuzzyVariable.get_membership_function,
      FuzzyMembership.eval, List.find?]
  · simp [ruleWeight, cexRule]
  · norm_num [ruleWeight, cexRule, List.min?, List.foldl, min_def]
  · simp [FuzzySystem.infer, inferPairs, evalRule, gatherAntecedent, dictGet,
      ruleWeight, FuzzySystem.get_fuzzy_variable, FuzzyVariable.get_membership_function,
      FuzzyMembership.eval, cexSystem, cexValues, cexRule, cexVariable, List.find?]

/-- Claim C3 amended: for every rule with two or more antecedent terms and
an empty operator list, infer assigns the rule a firing weight equal to
the FIRST of its membership degrees (membership_degrees[0]), not the
minimum. -/
theorem C3_amended_weight_is_first_degree (operators : List String)
    (degrees : List ℚ) (hlen : 2 ≤ degrees.length) (hops : operators = []) :
    ruleWeight operators degrees = degrees.head? := by
  subst hops
  simp [ruleWeight]

/-- Witness for the amended C3: degrees [1, 0] with no operator give
weight 1, the first degree. -/
theorem C3_amended_witness :
    ruleWeight [] [(1 : ℚ), 0] = ([(1 : ℚ), 0]).head? :=
  C3_amended_weight_is_first_degree [] [(1 : ℚ), 0] (by decide) rfl

/-- Claim C4 concerns a code bug: the duplicate check of both add
operations tests a string name for membership in a list of objects, which
in Python is always false (see pyStrEqMembership), so the DuplicateNameError
branch is unreachable and add ALWAYS appends — in particular adding a
membership function whose name is already present appends a duplicate
instead of failing, as the concrete conjuncts show at the failing input. -/
theorem C4_add_never_detects_duplicates :
    (∀ (v : FuzzyVariable) (mf : FuzzyMembership),
      v.add_membership_function mf =
        .ok { v with membership_functions := v.membership_functions ++ [mf] }) ∧
    (∀ (s : FuzzySystem) (fv : FuzzyVariable),
      s.add_fuzzy_variable fv =
        .ok { s with fuzzy_variables := s.fuzzy_variables ++ [fv] }) ∧
    FuzzyVariable.add_membership_function
        ⟨"F", [⟨"Low", [0, 0, 5]⟩]⟩ ⟨"Low", [0, 0, 5]⟩ =
      .ok ⟨"F", [⟨"Low", [0, 0, 5]⟩, ⟨"Low", [0, 0, 5]⟩]⟩ ∧
    FuzzySystem.add_fuzzy_variable
        ⟨[⟨"F", []⟩], []⟩ ⟨"F", []⟩ =
      .ok ⟨[⟨"F", []⟩, ⟨"F", []⟩], []⟩ := by
  refine ⟨?_, ?_, ?_, ?_⟩ <;>
    simp [FuzzyVariable.add_membership_function, FuzzySystem.add_fuzzy_variable,
      strInMembershipList, strInVariableList, pyStrEqMembership, pyStrEqVariable]

/-- Claim C5 concerns a code bug: the presence check of both delete
operations tests a string name for membership in a list of objects, which
in Python is always false (see pyStrEqMembership), so delete ALWAYS raises
the not-found error and never removes anything — even when an element with
the requested name is present, as the concrete conjuncts show at the
failing input. -/
theorem C5_delete_always_fails :
    (∀ (v : FuzzyVariable) (name : String),
      v.delete_membership_function name = .error (.membershipNotFound name)) ∧
    (∀ (s : FuzzySystem) (name : String),
      s.delete_fuzzy_variable name = .error (.variableNotFound name)) ∧
    FuzzyVariable.delete_membership_function
        ⟨"F", [⟨"Low", [0, 0, 5]⟩]⟩ "Low" =
      .error (.membershipNotFound "Low") ∧
    FuzzySystem.delete_fuzzy_variable
        ⟨[⟨"F", []⟩], []⟩ "F" =
      .error (.variableNotFound "F") := by
  refine ⟨?_, ?_, ?_, ?_⟩ <;>
    simp [FuzzyVariable.delete_membership_function, FuzzySystem.delete_fuzzy_variable,
      strInMembershipList, strInVariableList, pyStrEqMembership, pyStrEqVariable]

/-- Branch analysis of FuzzyMembership.eval for a three-point function:
the definition specialises to the source's four-way conditional on the
three points. Shared by the proofs about evaluate. -/
theorem eval_points_cases (m : FuzzyMembership) (p0 p1 p2 : ℚ)
    (hpts : m.points = [p0, p1, p2]) (x : ℚ) :
    m.eval x =
      if x ≤ p0 then (if p0 = p1 then 1 else 0)
      else if p0 < x ∧ x ≤ p1 then (x - p0) / (p1 - p0)
      else if p1 < x ∧ x ≤ p2 then (p2 - x) / (p2 - p1)
      else 0 := by
  simp [FuzzyMembership.eval, hpts]

/-- Claim C6: for every membership function with sorted points
p0 ≤ p1 ≤ p2 and every rational x, evaluate stays within [0, 1], and
evaluate at the peak p1 equals 1. -/
theorem C6_eval_unit_interval (m : FuzzyMembership) (p0 p1 p2 : ℚ)
    (hpts : m.points = [p0, p1, p2]) (h01 : p0 ≤ p1) (h12 : p1 ≤ p2) :
    (∀ x : ℚ, 0 ≤ m.eval x ∧ m.eval x ≤ 1) ∧ m.eval p1 = 1 := by
  constructor
  · intro x
    rw [eval_points_cases m p0 p1 p2 hpts x]
    by_cases h1 : x ≤ p0
    · rw [if_pos h1]
      by_cases h2 : p0 = p1 <;> simp [h2]
    · by_cases h3 : p0 < x ∧ x ≤ p1
      · rw [if_neg h1, if_pos h3]
        obtain ⟨h3a, h3b⟩ := h3
        have hd : 0 < p1 - p0 := by linarith
        constructor
        · apply div_nonneg _ (le_of_lt hd)
          linarith
        · rw [div_le_one hd]
          linarith
      · by_cases h4 : p1 < x ∧ x ≤ p2
        · rw [if_neg h1, if_neg h3, if_pos h4]
          obtain ⟨h4a, h4b⟩ := h4
          have hd : 0 < p2 - p1 := by linarith
          constructor
          · apply div_nonneg _ (le_of_lt hd)
            linarith
          · rw [div_le_one hd]
            linarith
        · rw [if_neg h1, if_neg h3, if_neg h4]
          norm_num
  · rw [eval_points_cases m p0 p1 p2 hpts p1]
    by_cases hle : p1 ≤ p0
    · have heq : p0 = p1 := le_antisymm h01 hle
      simp [hle, heq]
    · push_neg at hle
      rw [if_neg (by linarith), if_pos ⟨hle, le_refl p1⟩]
      rw [div_self]
      exact ne_of_gt (by linarith)

/-- Witness for C6: the Medium triangle [0, 5, 10] evaluated at 7 is in
[0, 1] and evaluated at its peak 5 is 1. -/
theorem C6_witness :
    (0 ≤ FuzzyMembership.eval ⟨"Medium", [0, 5, 10]⟩ 7 ∧
      FuzzyMembership.eval ⟨"Medium", [0, 5, 10]⟩ 7 ≤ 1) ∧
    FuzzyMembership.eval ⟨"Medium", [0, 5, 10]⟩ 5 = 1 :=
  ⟨(C6_eval_unit_interval ⟨"Medium", [0, 5, 10]⟩ 0 5 10 rfl (by norm_num)
      (by norm_num)).1 7,
   (C6_eval_unit_interval ⟨"Medium", [0, 5, 10]⟩ 0 5 10 rfl (by norm_num)
      (by norm_num)).2⟩

/-- Claim C7 is false on the code at the right shoulder: for the function
High with points [5, 10, 10] (p1 = p2 = 10) the claim asserts evaluate = 1
for every x ≥ p2, but at x = 11 the source returns 0: no branch matches
x = 11 > 10 and the final else yields 0. -/
theorem C7_counterexample :
    FuzzyMembership.eval ⟨"High", [5, 10, 10]⟩ 11 = 0 ∧
    FuzzyMembership.eval ⟨"High", [5, 10, 10]⟩ 11 ≠ 1 := by
  constructor <;> norm_num [FuzzyMembership.eval]

/-- Claim C7 amended: for sorted points p0 ≤ p1 ≤ p2, evaluate is 0 for
every x < p0 unless p0 = p1, in which case (left shoulder) evaluate is 1
for every x ≤ p0; and there is NO right-shoulder exception: for every
x > p2 evaluate is 0, also when p1 = p2. -/
theorem C7_amended_no_right_shoulder (m : FuzzyMembership) (p0 p1 p2 : ℚ)
    (hpts : m.points = [p0, p1, p2]) (h01 : p0 ≤ p1) (h12 : p1 ≤ p2) :
    (p0 ≠ p1 → ∀ x : ℚ, x < p0 → m.eval x = 0) ∧
    (p0 = p1 → ∀ x : ℚ, x ≤ p0 → m.eval x = 1) ∧
    (∀ x : ℚ, p2 < x → m.eval x = 0) := by
  refine ⟨?_, ?_, ?_⟩
  · intro hne x hx
    rw [eval_points_cases m p0 p1 p2 hpts x, if_pos (le_of_lt hx), if_neg hne]
  · intro heq x hx
    rw [eval_points_cases m p0 p1 p2 hpts x, if_pos hx, if_pos heq]
  · intro x hx
    rw [eval_points_cases m p0 p1 p2 hpts x]
    rw [if_neg (by intro h; linarith), if_neg (by intro h; obtain ⟨_, h2⟩ := h; linarith),
      if_neg (by intro h; obtain ⟨_, h2⟩ := h; linarith)]

/-- Witness for the amended C7: the Medium triangle [0, 5, 10] is 0 at -1
and at 11, and the left shoulder Low [0, 0, 5] is 1 at -3. -/
theorem C7_amended_witness :
    FuzzyMembership.eval ⟨"Medium", [0, 5, 10]⟩ (-1) = 0 ∧
    FuzzyMembership.eval ⟨"Low", [0, 0, 5]⟩ (-3) = 1 ∧
    FuzzyMembership.eval ⟨"Medium", [0, 5, 10]⟩ 11 = 0 :=
  ⟨(C7_amended_no_right_shoulder ⟨"Medium", [0, 5, 10]⟩ 0 5 10 rfl (by norm_num)
      (by norm_num)).1 (by norm_num) (-1) (by norm_num),
   (C7_amended_no_right_shoulder ⟨"Low", [0, 0, 5]⟩ 0 0 5 rfl (by norm_num)
      (by norm_num)).2.1 rfl (-3) (by norm_num),
   (C7_amended_no_right_shoulder ⟨"Medium", [0, 5, 10]⟩ 0 5 10 rfl (by norm_num)
      (by norm_num)).2.2 11 (by norm_num)⟩

/-- Claim C8: for a system with at least one rule, when the rule loop
succeeds and every rule's firing weight is 0, the aggregation divides by a
zero total weight: infer raises no error and returns the silent
not-a-number outcome, modelled as the ok-but-none result. -/
theorem C8_zero_total_weight_silently_nan (s : FuzzySystem)
    (values0 : List (String × ℚ)) (pairs : List (ℚ × ℚ))
    (hne : s.fuzzy_rules ≠ [])
    (hok : inferPairs s values0 s.fuzzy_rules = .ok pairs)
    (hzero : ∀ p ∈ pairs, p.2 = 0) :
    s.infer values0 = .ok none := by
  unfold FuzzySystem.infer
  rw [hok]
  have hsum : (pairs.map (fun p => p.2)).sum = 0 := by
    apply List.sum_eq_zero
    intro x hx
    obtain ⟨p, hp, rfl⟩ := List.mem_map.mp hx
    exact hzero p hp
  simp [hsum]

/-- Inputs outside every membership function's support in the demo
system: 20 exceeds the upper bound 10 of all six functions of the two
input variables. -/
def valuesOutside : List (String × ℚ) :=
  [("Food Quality", 20), ("Service Quality", 20)]

/-- Witness for C8: the demo system at Food Quality 20, Service Quality 20
has (output, weight) pairs [(50, 0), (50, 0), (50, 0)] and infer returns
the silent not-a-number outcome. -/
theorem C8_witness : fs.infer valuesOutside = .ok none :=
  C8_zero_total_weight_silently_nan fs valuesOutside [(50, 0), (50, 0), (50, 0)]
    (by simp [fs, rules])
    (by simp [inferPairs, evalRule, gatherAntecedent, dictGet, ruleWeight,
        FuzzySystem.get_fuzzy_variable, FuzzyVariable.get_membership_function,
        FuzzyMembership.eval, fs, rules, valuesOutside, food_quality,
        service_quality, tip_amount, rule1_3, rule2, List.find?, List.max?,
        List.min?] <;> norm_num)
    (by intro p hp
        simp only [List.mem_cons, List.not_mem_nil, or_false] at hp
        rcases hp with rfl | rfl | rfl <;> rfl)

/-- Claim C9: name references in rules are bound lazily; for a system whose
first rule's first antecedent term names the pair (v, m), the infer call as
a whole fails with the KeyError when v is absent from the inputs mapping,
with the variable not-found error when v is not registered in the system,
and with the membership not-found error when m is absent from the
registered variable — each detected only inside infer, which propagates the
error and returns no partial result. Construction itself is unvalidated:
FuzzyRule and FuzzySystem are plain data, so any dangling name is accepted
until infer runs (see the witness danglingSystem). -/
theorem C9_lookup_failures_at_infer_time (s : FuzzySystem)
    (values0 : List (String × ℚ)) (rule : FuzzyRule) (rest : List FuzzyRule)
    (v m : String) (ant : List (String × String))
    (hrules : s.fuzzy_rules = rule :: rest)
    (hant : rule.antecedent = (v, m) :: ant) :
    (dictGet values0 v = none → s.infer values0 = .error (.keyError v)) ∧
    (∀ x, dictGet values0 v = some x →
      s.get_fuzzy_variable v = .error (.variableNotFound v) →
      s.infer values0 = .error (.variableNotFound v)) ∧
    (∀ x fv, dictGet values0 v = some x →
      s.get_fuzzy_variable v = .ok fv →
      fv.get_membership_function m = .error (.membershipNotFound m) →
      s.infer values0 = .error (.membershipNotFound m)) := by
  refine ⟨?_, ?_, ?_⟩
  · intro hdict
    simp only [FuzzySystem.infer, hrules, inferPairs, evalRule, hant,
      gatherAntecedent, hdict]
  · intro x hdict hvar
    simp only [FuzzySystem.infer, hrules, inferPairs, evalRule, hant,
      gatherAntecedent, hdict, hvar]
  · intro x fv hdict hvar hmf
    simp only [FuzzySystem.infer, hrules, inferPairs, evalRule, hant,
      gatherAntecedent, hdict, hvar, hmf]

/-- A rule whose antecedent names a variable registered nowhere; it is a
plain value, accepted without validation at construction time. -/
def danglingRule : FuzzyRule :=
  { antecedent := [("Ghost", "A")], operators := [], consequent := fun _ => 0 }

/-- A system holding danglingRule and no variables at all; constructing it
succeeds, and only infer detects the dangling name. -/
def danglingSystem : FuzzySystem :=
  { fuzzy_variables := [], fuzzy_rules := [danglingRule] }

/-- Witness for C9: inferring on danglingSystem with an empty inputs
mapping fails with the KeyError for the unmapped variable name. -/
theorem C9_witness : danglingSystem.infer [] = .error (.keyError "Ghost") :=
  (C9_lookup_failures_at_infer_time danglingSystem [] danglingRule [] "Ghost" "A" []
    rfl rfl).1 rfl

/-- First-match behaviour of a name scan: find? over a list whose prefix
holds no element with the requested name returns the first element
carrying it, whatever follows. Shared by the lookup proofs. -/
theorem findFirstByName {α : Type} (nameOf : α → String) (pre post : List α)
    (a : α) (hpre : ∀ x ∈ pre, nameOf x ≠ nameOf a) :
    List.find? (fun x => nameOf x == nameOf a) (pre ++ a :: post) = some a := by
  induction pre with
  | nil => simp
  | cons b bs ih =>
    have hb : (nameOf b == nameOf a) = false := by
      simpa using hpre b (by simp)
    rw [List.cons_append, List.find?_cons, hb]
    exact ih (fun x hx => hpre x (by simp [hx]))

/-- Claim C10: get_membership_function and get_fuzzy_variable scan their
container's list in insertion order and return the first element whose
name equals the requested name — in particular, with duplicate names in
the list (reachable, since the duplicate guard of add is broken), every
lookup resolves to the earliest-inserted element. -/
theorem C10_lookup_first_match (vname : String) (pre post : List FuzzyMembership)
    (mf : FuzzyMembership) (vpre vpost : List FuzzyVariable) (fv : FuzzyVariable)
    (rules0 : List FuzzyRule)
    (hpre : ∀ x ∈ pre, x.name ≠ mf.name)
    (hvpre : ∀ x ∈ vpre, x.name ≠ fv.name) :
    FuzzyVariable.get_membership_function ⟨vname, pre ++ mf :: post⟩ mf.name = .ok mf ∧
    FuzzySystem.get_fuzzy_variable ⟨vpre ++ fv :: vpost, rules0⟩ fv.name = .ok fv := by
  constructor
  · unfold FuzzyVariable.get_membership_function
    rw [findFirstByName FuzzyMembership.name pre post mf hpre]
  · unfold FuzzySystem.get_fuzzy_variable
    rw [findFirstByName FuzzyVariable.name vpre vpost fv hvpre]

/-- Witness for C10: with two functions both named Low, lookup returns the
earliest-inserted one; likewise for two variables both named A. -/
theorem C10_witness :
    FuzzyVariable.get_membership_function
        ⟨"F", [⟨"Low", [0, 0, 5]⟩, ⟨"Low", [1, 1, 1]⟩]⟩ "Low" =
      .ok ⟨"Low", [0, 0, 5]⟩ ∧
    FuzzySystem.get_fuzzy_variable
        ⟨[⟨"A", []⟩, ⟨"A", [⟨"x", []⟩]⟩], []⟩ "A" = .ok ⟨"A", []⟩ :=
  C10_lookup_first_match "F" [] [⟨"Low", [1, 1, 1]⟩] ⟨"Low", [0, 0, 5]⟩
    [] [⟨"A", [⟨"x", []⟩]⟩] ⟨"A", []⟩ []
    (by intro x hx; simp at hx) (by intro x hx; simp at hx)
